import Mathlib

/-!
Shallow embedding of the mango-v4 repository fragments under verification:

* `lib/client/src/swap/sanctum.rs` — the Sanctum swap composer
  (`quote`, `prepare_swap_transaction`).
* `programs/mango-v4/src/instructions/token_register.rs` — `token_register`.
* `programs/mango-v4/src/state/mint_info.rs` — `MintInfo` and its methods.

Machine integers are modelled as `Nat` (with explicit bounds where overflow
matters), pubkeys as `Nat` (the 32-byte value; `Pubkey::default()` is 0 and
the distinct on-chain program ids are modelled by distinct constants),
fallible code returns `Except`/dedicated result types with an explicit
`panic` outcome where the Rust uses `unwrap`/`expect`.
-/

namespace MangoV4

/-- Model of `solana_sdk::pubkey::Pubkey`: the 32-byte key as its value. -/
abbrev Pubkey := Nat

/-- `Pubkey::default()`, the all-zero key. -/
def pubkeyDefault : Pubkey := 0

/-- Model of `anchor_lang::system_program::ID` (a fixed on-chain id, distinct
from the other program ids below). -/
def systemProgramId : Pubkey := 1

/-- Model of `anchor_spl::token::ID`. -/
def tokenProgramId : Pubkey := 2

/-- Model of `anchor_spl::associated_token::ID`. -/
def ataProgramId : Pubkey := 3

/-- Model of `solana_sdk::compute_budget::ID`. -/
def computeBudgetProgramId : Pubkey := 4

/-- Model of `solana_sdk::instruction::Instruction`: the fields the composer
inspects (`program_id` and `data`; account metas are not inspected by the
classification/splicing logic). Data is the byte list. -/
structure Instruction where
  programId : Pubkey
  data : List Nat
deriving DecidableEq, Repr

/-- `TokenInstruction::SyncNative.pack()`: the single tag byte 17. -/
def syncNativePack : List Nat := [17]

/-- The `is_setup_ix` closure in `prepare_swap_transaction`:
`k == ata_program || k == token_program || k == compute_budget_program`. -/
def isSetupIx (k : Pubkey) : Bool :=
  k == ataProgramId || k == tokenProgramId || k == computeBudgetProgramId

/-- The wrapping-strip filter in `prepare_swap_transaction` (lines 216-223):
keep `ix` iff `!(ix.program_id == system_program) &&
!(ix.program_id == token_program && ix.data == sync_native_pack)`. -/
def stripWrap (ixs : List Instruction) : List Instruction :=
  ixs.filter fun ix =>
    !(ix.programId == systemProgramId)
      && !(ix.programId == tokenProgramId && ix.data == syncNativePack)

/-- Model of `mango_v4::accounts_ix::FlashLoanType`. -/
inductive FlashLoanType
  | unknown
  | swap
deriving DecidableEq, Repr

/-- One instruction of the composed bundle. Provider instructions are kept
verbatim; the three instructions the composer itself builds are modelled by
their distinguishing payloads (the ATA-creation target mint, Begin's
`loan_amounts`, End's `num_loans` and `flash_loan_type`; their account-meta
lists are not inspected by any claim). -/
inductive ComposedIx
  | provider (ix : Instruction)
  | createAtaIdempotent (payer owner mint : Pubkey)
  | flashLoanBegin (loanAmounts : List Nat)
  | flashLoanEnd (numLoans : Nat) (kind : FlashLoanType)
deriving DecidableEq, Repr

/-- Outcome of the instruction-assembly part of `prepare_swap_transaction`. -/
inductive ComposeResult
  | ok (bundle : List ComposedIx)
  | providerMisuse
  | panicked
deriving DecidableEq, Repr

/-- The classifier closure `|ix| !is_setup_ix(ix.program_id)` used by both
the forward and the reverse search: an instruction counts as an "action"
instruction iff its program id is not on the setup allow-list. -/
def isActionIx (ix : Instruction) : Bool := !(isSetupIx ix.programId)

/-- The instruction-assembly part of `prepare_swap_transaction`
(sanctum.rs lines 204-306): strip wrapping, locate the first/last
non-setup ("action") instruction, and emit prefix ++ [create-ATA(source
mint)] ++ [FlashLoanBegin [source_loan, 0]] ++ action block ++
[FlashLoanEnd 2 Swap] ++ suffix.  `outputMint` enters the source only
through the target token's bank/vault account metas of Begin/End, which are
not modelled; the ATA-creation instruction targets `source_token.mint`,
i.e. `inputMint`. The inner `.unwrap()` on the reverse search is modelled
by `panicked` (it is in fact unreachable once the forward search succeeds). -/
def composeBundle (owner inputMint outputMint : Pubkey) (sourceLoan : Nat)
    (ixsOrig : List Instruction) : ComposeResult :=
  let _ := outputMint
  let sanctumIxs := stripWrap ixsOrig
  let loanAmounts := [sourceLoan, 0]
  let numLoans := loanAmounts.length
  match sanctumIxs.findIdx? isActionIx with
  | none => .providerMisuse
  | some b =>
    match sanctumIxs.reverse.findIdx? isActionIx with
    | none => .panicked
    | some rb =>
      let e := sanctumIxs.length - rb
      .ok ((sanctumIxs.take b).map .provider
        ++ [.createAtaIdempotent owner owner inputMint]
        ++ [.flashLoanBegin loanAmounts]
        ++ ((sanctumIxs.drop b).take (e - b)).map .provider
        ++ [.flashLoanEnd numLoans .swap]
        ++ (sanctumIxs.drop e).map .provider)

/-- Partition component, in the words of the specification: the
instructions strictly before the first action instruction. -/
def actionBefore (l : List Instruction) : List Instruction :=
  l.takeWhile fun ix => !(isActionIx ix)

/-- Partition component, in the words of the specification: the
instructions from the first through the last action instruction
inclusive. -/
def actionBlock (l : List Instruction) : List Instruction :=
  ((l.dropWhile fun ix => !(isActionIx ix)).reverse.dropWhile
      fun ix => !(isActionIx ix)).reverse

/-- Partition component, in the words of the specification: the
instructions strictly after the last action instruction. -/
def actionAfter (l : List Instruction) : List Instruction :=
  ((l.dropWhile fun ix => !(isActionIx ix)).reverse.takeWhile
      fun ix => !(isActionIx ix)).reverse

/-- A concrete setup-classified instruction (compute-budget directive). -/
def setupIxEx : Instruction := ⟨computeBudgetProgramId, [0]⟩

/-- A concrete action-classified instruction (an unknown venue program). -/
def actionIxEx : Instruction := ⟨100, [1, 2]⟩

/-- A wrapping instruction captured by the claim's description: a
token-program instruction whose data is the SyncNative encoding, or any
system-program instruction. -/
def isWrappingIx (ix : Instruction) : Bool :=
  ix.programId == systemProgramId
    || (ix.programId == tokenProgramId && ix.data == syncNativePack)

/-- The composer's failure taxonomy (spec §4.5/§7). -/
inductive ComposerError
  | distinctAssetViolation
  | accountFull
  | providerUnavailable
  | providerMisuse
  | arithmeticOverflow
  | tokenNotFound
deriving DecidableEq, Repr

/-- Token index within the group registry (`TokenIndex`, a u16). -/
abbrev TokenIndex := Nat

/-- The slice of the mango account state the quote path consults: the
occupied token-position slots and the slot bound. -/
structure MangoAccountModel where
  tokenPositions : List TokenIndex
  maxTokenPositions : Nat

/-- Modelled from the spec: `ensure_token_position` is not under `src/`
(only its caller is); per §4.2, "`ensure(asset)` creates an Absent slot at
zero if none exists, failing with `AccountFull` if no free slot remains
(slots are a fixed small bound per account)". -/
def ensureTokenPosition (a : MangoAccountModel) (ti : TokenIndex) :
    Except ComposerError MangoAccountModel :=
  if ti ∈ a.tokenPositions then .ok a
  else if a.tokenPositions.length < a.maxTokenPositions then
    .ok ⟨a.tokenPositions ++ [ti], a.maxTokenPositions⟩
  else .error .accountFull

/-- Model of the `QuoteResponse` wire struct of sanctum.rs. -/
structure QuoteResponseM where
  inAmount : Option String
  outAmount : String
  feeAmount : String
  feeMint : String
  feePct : String
  swapSrc : String
deriving DecidableEq, Repr

/-- The HTTP GET request `quote` sends to `{sanctum_url}/swap/quote`,
identified by its query arguments. -/
structure QuoteRequest where
  input : Pubkey
  outputLstMint : Pubkey
  amount : Nat
deriving DecidableEq, Repr

/-- Environment of the `quote` operation: the token registry lookup
(`context.token_by_mint`) and the provider's answer to the quote request
(`none` models a network failure/timeout). -/
structure QuoteCtx where
  tokenByMint : Pubkey → Option TokenIndex
  providerQuote : Option QuoteResponseM

/-- Model of `Sanctum::quote` (sanctum.rs lines 56-102): reject identical
mints, resolve both token indices, ensure both token positions on the
(locally loaded) account, and only then issue the network request. The
second component of the result records every network request sent. -/
def quoteOp (ctx : QuoteCtx) (account : MangoAccountModel)
    (inputMint outputMint : Pubkey) (amount : Nat) :
    Except ComposerError QuoteResponseM × List QuoteRequest :=
  if inputMint == outputMint then (.error .distinctAssetViolation, [])
  else
    match ctx.tokenByMint inputMint with
    | none => (.error .tokenNotFound, [])
    | some inputIdx =>
      match ctx.tokenByMint outputMint with
      | none => (.error .tokenNotFound, [])
      | some outputIdx =>
        match ensureTokenPosition account inputIdx with
        | .error e => (.error e, [])
        | .ok acct1 =>
          match ensureTokenPosition acct1 outputIdx with
          | .error e => (.error e, [])
          | .ok _ =>
            match ctx.providerQuote with
            | some q => (.ok q, [⟨inputMint, outputMint, amount⟩])
            | none => (.error .providerUnavailable, [⟨inputMint, outputMint, amount⟩])

/-- A concrete quote response used by the examples below. -/
def quoteResponseEx : QuoteResponseM := ⟨some "100", "90", "1", "m", "0.1", "src"⟩

/-- A concrete quote environment: mints 10 and 11 resolve to token indices
0 and 1, and the provider answers `quoteResponseEx`. -/
def quoteCtxEx : QuoteCtx :=
  ⟨fun m => if m == 10 then some 0 else if m == 11 then some 1 else none,
   some quoteResponseEx⟩

/-- An account whose slots are exhausted but which already holds positions
for token indices 0 and 1. -/
def accountFullWithPositionsEx : MangoAccountModel := ⟨[0, 1], 2⟩

/-- An account with one occupied slot out of one, lacking a position for
token index 0. -/
def accountNoSlotEx : MangoAccountModel := ⟨[5], 1⟩

/-- An account with one occupied slot out of one, holding the input
asset's position (token index 0) but lacking the output asset's
(token index 1). -/
def accountMissingOutputEx : MangoAccountModel := ⟨[0], 1⟩

/-- Model of `u64::from_str` / `str::parse::<u64>`: an optional leading
`+`, then one or more ascii digits, rejecting the empty digit string and
values exceeding `u64::MAX`. -/
def parseU64 (s : String) : Option Nat :=
  let t := match s.data with
    | '+' :: rest => rest
    | l => l
  if t = [] then none
  else if t.all (fun c => c.isDigit) then
    let v := t.foldl (fun acc c => 10 * acc + (c.toNat - '0'.toNat)) 0
    if v < 2 ^ 64 then some v else none
  else none

/-- Outcome of the amount handling of `prepare_swap_transaction`: a panic
(`unwrap`/`expect`), a recoverable error (the `?` operator), or the
successfully extracted amounts. -/
inductive AmountsResult
  | panicked (msg : String)
  | err (e : ComposerError)
  | ok (sourceLoan : Nat) (inAmount : String) (outAmountQuoted : Nat)
deriving DecidableEq, Repr

/-- The amount handling of `prepare_swap_transaction` (sanctum.rs lines
139-145 and 161-165): `source_loan` comes from
`quote.in_amount.as_ref().map(|v| u64::from_str(v).unwrap()).unwrap_or(0)`
— a malformed present string panics; a missing `in_amount` first defaults
the loan to 0 and then panics at
`quote.in_amount.clone().expect("sanctum require a in amount")`; finally
`quote.out_amount.parse::<u64>()?` surfaces a recoverable parse error. -/
def computeSwapAmounts (q : QuoteResponseM) : AmountsResult :=
  match q.inAmount with
  | none => .panicked "sanctum require a in amount"
  | some v =>
    match parseU64 v with
    | none => .panicked "u64 from_str unwrap"
    | some n =>
      match parseU64 q.outAmount with
      | none => .err .arithmeticOverflow
      | some outA => .ok n v outA

/-- A provider response whose `in_amount` is a malformed numeric string. -/
def quoteBadInEx : QuoteResponseM := ⟨some "12x", "5", "0", "m", "0", "s"⟩

/-!
Model of the IEEE-754 double-precision arithmetic the composer uses to
derive `min_output` (sanctum.rs lines 161-167):
`((quote_amount_u64 as f64) * (1.0 - (max_slippage_bps as f64) / 10_000.0))
.ceil() as u64`.
A finite double is a rational `m * 2^(e-52)` with `|m| < 2^53`; every
operation rounds its exact rational result to the nearest such value, ties
to even. All values arising here lie far inside the normal range, so
subnormals and overflow do not occur and rounding is exactly
round-to-nearest-even at 53 significant bits.
-/
/-- An unreduced fraction `num / den` (`den` positive by construction).
Used instead of `ℚ` so that every arithmetic step is a primitive
`Int`/`Nat` operation the kernel evaluates. -/
structure Frac where
  num : Int
  den : Nat
deriving DecidableEq, Repr

/-- The exact rational value of a `Frac`. -/
def Frac.val (x : Frac) : ℚ := (x.num : ℚ) / (x.den : ℚ)

/-- Embed a natural number. -/
def Frac.ofNat (n : Nat) : Frac := ⟨n, 1⟩

/-- Exact product. -/
def Frac.mul (x y : Frac) : Frac := ⟨x.num * y.num, x.den * y.den⟩

/-- Exact difference. -/
def Frac.sub (x y : Frac) : Frac :=
  ⟨x.num * y.den - y.num * x.den, x.den * y.den⟩

/-- Exact quotient (for a positive divisor, the only case arising here). -/
def Frac.div (x y : Frac) : Frac := ⟨x.num * y.den, x.den * y.num.toNat⟩

/-- Negation. -/
def Frac.neg (x : Frac) : Frac := ⟨-x.num, x.den⟩

/-- Exact scaling by an integer power of two. -/
def Frac.mulPow2 (x : Frac) (k : Int) : Frac :=
  if 0 ≤ k then ⟨x.num * ((2 ^ k.toNat : Nat) : Int), x.den⟩
  else ⟨x.num, x.den * 2 ^ (-k).toNat⟩

/-- Floor of a `Frac` (Euclidean division floors for a positive
denominator). -/
def Frac.floor (x : Frac) : Int := x.num.ediv x.den

/-- Ceiling of a `Frac`. -/
def Frac.ceil (x : Frac) : Int := -((-x.num).ediv x.den)

/-- Round to the nearest integer, ties to even. -/
def Frac.roundHalfEven (x : Frac) : Int :=
  let f := x.floor
  let r2 := 2 * (x.num - f * x.den)
  if r2 < (x.den : Int) then f
  else if (x.den : Int) < r2 then f + 1
  else if f % 2 = 0 then f else f + 1

/-- Fuel-driven bit length: `bitLen fuel n` is the number of binary digits
of `n` (for `n < 2^fuel`). -/
def bitLen : Nat → Nat → Nat
  | 0, _ => 0
  | fuel + 1, n => if n = 0 then 0 else bitLen fuel (n / 2) + 1

/-- Floor of the base-2 logarithm of the positive rational `a / b`. -/
def floorLog2 (a b : Nat) : Int :=
  let e : Int := (bitLen 256 a : Int) - (bitLen 256 b : Int)
  if b * 2 ^ e.toNat ≤ a * 2 ^ (-e).toNat then e else e - 1

/-- Round a positive value to the nearest double (53-bit significand,
round-to-nearest-even; all values arising here are in the normal range). -/
def roundPosF64 (x : Frac) : Frac :=
  let e := floorLog2 x.num.toNat x.den
  Frac.mulPow2 ⟨(x.mulPow2 (52 - e)).roundHalfEven, 1⟩ (e - 52)

/-- Round a value to the nearest double. -/
def roundF64 (x : Frac) : Frac :=
  if x.num = 0 then ⟨0, 1⟩
  else if 0 < x.num then roundPosF64 x
  else (roundPosF64 x.neg).neg

/-- Rust `u64 as f64` (round to nearest, ties to even). -/
def u64ToF64 (n : Nat) : Frac := roundF64 (Frac.ofNat n)

/-- IEEE double division of two exactly-represented doubles. -/
def f64Div (x y : Frac) : Frac := roundF64 (x.div y)

/-- IEEE double subtraction. -/
def f64Sub (x y : Frac) : Frac := roundF64 (x.sub y)

/-- IEEE double multiplication. -/
def f64Mul (x y : Frac) : Frac := roundF64 (x.mul y)

/-- `f64::ceil` followed by Rust's saturating `as u64` cast. -/
def f64CeilToU64 (x : Frac) : Nat :=
  let c := x.ceil
  if c < 0 then 0 else min c.toNat (2 ^ 64 - 1)

/-- The `out_amount` computation of `prepare_swap_transaction` (lines
165-167): `((quote_amount_u64 as f64) * (1.0 - (max_slippage_bps as f64) /
10_000.0)).ceil() as u64`, with every step in double precision (the
literals `1.0` and `10_000.0` are exactly representable). -/
def sanctumOutAmount (quoteAmount maxSlippageBps : Nat) : Nat :=
  f64CeilToU64 (f64Mul (u64ToF64 quoteAmount)
    (f64Sub (Frac.ofNat 1) (f64Div (u64ToF64 maxSlippageBps) (Frac.ofNat 10000))))

/-- The specification's description of `min_output`: the exact arithmetic
ceiling of the rational product `E * (1 - s / 10000)`. -/
def exactCeilMinOutput (e s : Nat) : Int :=
  ⌈(e : ℚ) * (1 - (s : ℚ) / 10000)⌉

/-- Model of the `fixed` crate's `I80F48` (80 integer / 48 fractional
bits) by its raw scaled integer: the represented value is
`raw / 2^48`. -/
structure I80F48 where
  raw : Int
deriving DecidableEq, Repr

/-- `I80F48::from_num` of an integer. -/
def I80F48.ofInt (n : Int) : I80F48 := ⟨n * 2 ^ 48⟩

/-- `I80F48::ZERO`. -/
def I80F48.zero : I80F48 := ⟨0⟩

/-- `INDEX_START = I80F48!(1_000_000)` (token_register.rs line 12). -/
def INDEX_START : I80F48 := I80F48.ofInt 1000000

/-- Model of the `Bank` record as populated by `token_register`
(token_register.rs lines 105-135). The interest-curve / fee / weight
parameters arrive as `f32` and are stored through `I80F48::from_num`; the
model takes the already-converted `I80F48` values as inputs, since no
claim constrains that conversion. -/
structure Bank where
  name : String
  group : Pubkey
  mint : Pubkey
  vault : Pubkey
  oracle : Pubkey
  depositIndex : I80F48
  borrowIndex : I80F48
  indexedTotalDeposits : I80F48
  indexedTotalBorrows : I80F48
  lastUpdated : Int
  util0 : I80F48
  rate0 : I80F48
  util1 : I80F48
  rate1 : I80F48
  maxRate : I80F48
  collectedFeesNative : I80F48
  loanOriginationFeeRate : I80F48
  loanFeeRate : I80F48
  maintAssetWeight : I80F48
  initAssetWeight : I80F48
  maintLiabWeight : I80F48
  initLiabWeight : I80F48
  liquidationFee : I80F48
  dust : I80F48
  tokenIndex : TokenIndex
  bump : Nat
  mintDecimals : Nat

/-- The `Bank` assignment of `token_register`: fresh indices at
`INDEX_START`, zero indexed totals, zero collected fees and dust, and
`last_updated` set to the current clock timestamp. -/
def tokenRegister (name : String) (group mint vault oracle : Pubkey)
    (now : Int) (util0 rate0 util1 rate1 maxRate : I80F48)
    (loanOriginationFeeRate loanFeeRate : I80F48)
    (maintAssetWeight initAssetWeight maintLiabWeight initLiabWeight
      liquidationFee : I80F48)
    (tokenIndex : TokenIndex) (bump mintDecimals : Nat) : Bank :=
  { name := name
    group := group
    mint := mint
    vault := vault
    oracle := oracle
    depositIndex := INDEX_START
    borrowIndex := INDEX_START
    indexedTotalDeposits := I80F48.zero
    indexedTotalBorrows := I80F48.zero
    lastUpdated := now
    util0 := util0
    rate0 := rate0
    util1 := util1
    rate1 := rate1
    maxRate := maxRate
    collectedFeesNative := I80F48.zero
    loanOriginationFeeRate := loanOriginationFeeRate
    loanFeeRate := loanFeeRate
    maintAssetWeight := maintAssetWeight
    initAssetWeight := initAssetWeight
    maintLiabWeight := maintLiabWeight
    initLiabWeight := initLiabWeight
    liquidationFee := liquidationFee
    dust := I80F48.zero
    tokenIndex := tokenIndex
    bump := bump
    mintDecimals := mintDecimals }

/-- `MAX_BANKS` (mint_info.rs line 9). -/
def MAX_BANKS : Nat := 6

/-- The declared field layout of `MintInfo` (mint_info.rs lines 17-33), in
order: `group`, `mint`, `banks`, `vaults`, `oracle`,
`address_lookup_table`, `token_index` (u16), the two u8 lookup-table
indices, `reserved` ([u8; 4]). With `repr(C)` zero-copy layout every field
offset is already aligned (the maximum field alignment is 2), so the
record size is the plain sum of the field sizes. -/
def mintInfoFieldSizes : List Nat :=
  [32, 32, MAX_BANKS * 32, MAX_BANKS * 32, 32, 32, 2, 1, 1, 4]

/-- `size_of::<MintInfo>()` under the paddingless declared layout. -/
def sizeOfMintInfo : Nat := mintInfoFieldSizes.sum

/-- Model of `AccountInfo` restricted to the only field
`verify_banks_ais` reads: the account key. -/
structure AccountInfoM where
  key : Pubkey
deriving DecidableEq, Repr

/-- Model of `MangoError` as used by `verify_banks_ais`. -/
inductive MangoError
  | someError
deriving DecidableEq, Repr

/-- Model of the `MintInfo` record (mint_info.rs lines 17-33); the
fixed-size array `banks: [Pubkey; MAX_BANKS]` is a list with a length
invariant. -/
structure MintInfo where
  group : Pubkey
  mint : Pubkey
  banks : List Pubkey
  vaults : List Pubkey
  oracle : Pubkey
  addressLookupTable : Pubkey
  tokenIndex : TokenIndex
  banksLen : banks.length = MAX_BANKS

/-- `MintInfo::num_banks` (mint_info.rs lines 50-55): the position of the
first default pubkey in `banks`, or `MAX_BANKS` if none. -/
def MintInfo.numBanks (m : MintInfo) : Nat :=
  (m.banks.findIdx? (fun b => b == pubkeyDefault)).getD MAX_BANKS

/-- `MintInfo::banks` (mint_info.rs lines 57-59): the prefix
`&banks[..num_banks()]`. -/
def MintInfo.banksActive (m : MintInfo) : List Pubkey :=
  m.banks.take m.numBanks

/-- `MintInfo::verify_banks_ais` (mint_info.rs lines 61-67):
`require!(all_bank_ais.iter().map(|ai| ai.key).eq(self.banks().iter()))`. -/
def MintInfo.verifyBanksAis (m : MintInfo) (ais : List AccountInfoM) :
    Except MangoError Unit :=
  if ais.map AccountInfoM.key = m.banksActive then .ok ()
  else .error .someError

set_option maxRecDepth 16000

section ListLemmas

variable {α : Type} (p : α → Bool)

theorem findIdx?_eq_of_takeWhile [DecidableEq α] (l : List α) :
    l.findIdx? p =
      if l.dropWhile (fun x => !(p x)) = [] then none
      else some (l.takeWhile (fun x => !(p x))).length := by
  induction l with
  | nil => simp
  | cons x xs ih =>
    by_cases hx : p x
    · simp [List.findIdx?_cons, List.dropWhile_cons, List.takeWhile_cons, hx]
    · have hx' : p x = false := by simp [hx]
      simp only [List.findIdx?_cons, List.dropWhile_cons, List.takeWhile_cons,
        hx', Bool.not_false, ite_true, ite_false, Bool.false_eq_true,
        Nat.zero_add, List.findIdx?_succ]
      rw [ih]
      by_cases hnil : xs.dropWhile (fun x => !(p x)) = [] <;>
        simp [hnil, List.length_cons]

theorem takeWhile_append_of_dropWhile_ne_nil {m : List α} (m' : List α)
    (h : m.dropWhile p ≠ []) :
    (m ++ m').takeWhile p = m.takeWhile p := by
  induction m with
  | nil => simp at h
  | cons x xs ih =>
    by_cases hx : p x
    · have h' : xs.dropWhile p ≠ [] := by
        simpa [List.dropWhile_cons, hx] using h
      simp [List.takeWhile_cons, hx, ih h']
    · simp [List.takeWhile_cons, hx]

theorem dropWhile_append_of_dropWhile_ne_nil {m : List α} (m' : List α)
    (h : m.dropWhile p ≠ []) :
    (m ++ m').dropWhile p = m.dropWhile p ++ m' := by
  induction m with
  | nil => simp at h
  | cons x xs ih =>
    by_cases hx : p x
    · have h' : xs.dropWhile p ≠ [] := by
        simpa [List.dropWhile_cons, hx] using h
      simp [List.dropWhile_cons, hx, ih h']
    · simp [List.dropWhile_cons, hx]

theorem take_takeWhile_length (l : List α) :
    l.take (l.takeWhile p).length = l.takeWhile p := by
  induction l with
  | nil => simp
  | cons x xs ih =>
    by_cases hx : p x <;> simp [List.takeWhile_cons, hx, ih]

theorem dropWhile_head_false {l t : List α} {a : α}
    (h : l.dropWhile p = a :: t) : p a = false := by
  induction l with
  | nil => simp at h
  | cons x xs ih =>
    by_cases hx : p x
    · exact ih (by simpa [List.dropWhile_cons, hx] using h)
    · have : x = a := by
        have := h
        simp [List.dropWhile_cons, hx] at this
        exact this.1
      subst this
      simp [hx]

end ListLemmas

/-- The first/last-action search of `prepare_swap_transaction` agrees with
the specification's partition: the forward `position` finds the length of
the all-setup prefix, the reverse `position` finds the length of the
all-setup suffix, and the three slices the code takes are exactly the
partition components. -/
theorem partition_indices (s : List Instruction) (h : s.any isActionIx = true) :
    s.findIdx? isActionIx = some (actionBefore s).length ∧
    s.reverse.findIdx? isActionIx = some (actionAfter s).length ∧
    s.take (actionBefore s).length = actionBefore s ∧
    (s.drop (actionBefore s).length).take
        (s.length - (actionAfter s).length - (actionBefore s).length) =
      actionBlock s ∧
    s.drop (s.length - (actionAfter s).length) = actionAfter s := by
  simp only [actionBefore, actionBlock, actionAfter, List.length_reverse]
  set P := s.takeWhile (fun ix => !(isActionIx ix)) with hPdef
  set R := s.dropWhile (fun ix => !(isActionIx ix)) with hRdef
  set A := R.reverse.takeWhile (fun ix => !(isActionIx ix)) with hAdef
  set B := R.reverse.dropWhile (fun ix => !(isActionIx ix)) with hBdef
  have hPR : P ++ R = s := by
    rw [hPdef, hRdef]; exact List.takeWhile_append_dropWhile _ _
  have hRne : R ≠ [] := by
    rw [hRdef]
    intro hnil
    rw [List.dropWhile_eq_nil_iff] at hnil
    obtain ⟨x, hx, hpx⟩ := List.any_eq_true.mp h
    have hqx := hnil x hx
    simp [hpx] at hqx
  obtain ⟨a, R', hRcons⟩ : ∃ a R', R = a :: R' := by
    cases hd : R with
    | nil => exact absurd hd hRne
    | cons a R' => exact ⟨a, R', rfl⟩
  have ha : isActionIx a = true := by
    have hhd := dropWhile_head_false (fun ix => !(isActionIx ix)) (hRdef ▸ hRcons)
    simpa using hhd
  have hBne : B ≠ [] := by
    rw [hBdef]
    intro hnil
    rw [List.dropWhile_eq_nil_iff] at hnil
    have hmem : a ∈ R.reverse := by simp [hRcons]
    have hq := hnil a hmem
    simp [ha] at hq
  have hAB : A ++ B = R.reverse := by
    rw [hAdef, hBdef]; exact List.takeWhile_append_dropWhile _ _
  have hRBA : R = B.reverse ++ A.reverse := by
    have h1 := congrArg List.reverse hAB
    simpa [List.reverse_append] using h1.symm
  have hlen : s.length = P.length + (B.length + A.length) := by
    rw [← hPR, List.length_append, hRBA, List.length_append,
      List.length_reverse, List.length_reverse]
  have hBne' : R.reverse.dropWhile (fun ix => !(isActionIx ix)) ≠ [] := by
    rw [← hBdef]; exact hBne
  refine ⟨?_, ?_, ?_, ?_, ?_⟩
  · rw [findIdx?_eq_of_takeWhile, ← hPdef, ← hRdef, if_neg hRne]
  · have h1 : s.reverse.takeWhile (fun ix => !(isActionIx ix)) = A := by
      conv_lhs => rw [← hPR]
      rw [List.reverse_append,
        takeWhile_append_of_dropWhile_ne_nil _ _ hBne', ← hAdef]
    have h2 : s.reverse.dropWhile (fun ix => !(isActionIx ix)) = B ++ P.reverse := by
      conv_lhs => rw [← hPR]
      rw [List.reverse_append,
        dropWhile_append_of_dropWhile_ne_nil _ _ hBne', ← hBdef]
    rw [findIdx?_eq_of_takeWhile, h1, h2, if_neg (by simp [hBne])]
  · conv_lhs => rw [← hPR]
    exact List.take_left P R
  · have hdrop : s.drop P.length = R := by
      conv_lhs => rw [← hPR]
      exact List.drop_left P R
    have hnum : s.length - A.length - P.length = B.length := by omega
    rw [hdrop, hnum, hRBA]
    exact List.take_left' (List.length_reverse B)
  · have hnum : s.length - A.length = P.length + B.length := by omega
    rw [hnum, ← hPR, hRBA, ← List.append_assoc]
    exact List.drop_left' (by simp)

/-- Canonical form of every successful composition: the stripped provider
list is partitioned at the first/last action instruction and spliced with
the ATA-creation (for the input mint), `FlashLoanBegin [source_loan, 0]`
and `FlashLoanEnd 2 Swap` instructions. Shared helper for the claim
theorems below. -/
theorem composeBundle_shape (owner inputMint outputMint : Pubkey) (amt : Nat)
    (ixs : List Instruction) (h : (stripWrap ixs).any isActionIx = true) :
    composeBundle owner inputMint outputMint amt ixs =
      .ok ((actionBefore (stripWrap ixs)).map .provider
        ++ [.createAtaIdempotent owner owner inputMint]
        ++ [.flashLoanBegin [amt, 0]]
        ++ (actionBlock (stripWrap ixs)).map .provider
        ++ [.flashLoanEnd 2 .swap]
        ++ (actionAfter (stripWrap ixs)).map .provider) := by
  obtain ⟨h1, h2, h3, h4, h5⟩ := partition_indices (stripWrap ixs) h
  simp only [composeBundle, List.length_cons, List.length_nil]
  rw [h1, h2]
  simp only [h3, h4, h5]

/-- C7: before classifying, the composer removes exactly the instructions
performing implicit native-asset wrapping — every system-program
instruction and every token-program instruction whose data is the
SyncNative encoding — and keeps all the others in their original relative
order (the result is a sublist of the input consisting exactly of the
non-wrapping instructions). -/
theorem stripWrap_removes_exactly_wrapping (ixs : List Instruction) :
    stripWrap ixs = ixs.filter (fun ix => !(isWrappingIx ix))
    ∧ (stripWrap ixs).Sublist ixs := by
  constructor
  · refine List.filter_congr ?_
    intro ix _
    simp [isWrappingIx, Bool.not_or]
  · exact List.filter_sublist _

/-- C4: when every instruction surviving the wrapping-strip is
setup-classified, composition fails with the provider-misuse error and
produces no bundle. -/
theorem composeBundle_all_setup_fails (owner inputMint outputMint : Pubkey)
    (amt : Nat) (ixs : List Instruction)
    (h : ∀ ix ∈ stripWrap ixs, isSetupIx ix.programId = true) :
    composeBundle owner inputMint outputMint amt ixs = .providerMisuse := by
  have hfind : (stripWrap ixs).findIdx? isActionIx = none := by
    rw [List.findIdx?_eq_none_iff]
    intro x hx
    simp [isActionIx, h x hx]
  simp only [composeBundle, hfind]

/-- Witness for C4 at the singleton setup list. -/
theorem composeBundle_all_setup_fails_witness :
    composeBundle 1 10 11 7 [setupIxEx] = .providerMisuse :=
  composeBundle_all_setup_fails 1 10 11 7 [setupIxEx] (by decide)

/-- Counterexample to C1 as stated: for the decoded list `[setup, action,
setup]` with input mint 10 and output mint 11, the emitted bundle is not
the one the claim describes — the instruction between the prefix and
`Begin` is the ensure-account instruction for the input mint 10, not for
the destination (output) mint 11. -/
theorem composeBundle_claimed_destination_refuted :
    composeBundle 1 10 11 7 [setupIxEx, actionIxEx, setupIxEx] ≠
      ComposeResult.ok [.provider setupIxEx,
        .createAtaIdempotent 1 1 11,
        .flashLoanBegin [7, 0],
        .provider actionIxEx,
        .flashLoanEnd 2 .swap,
        .provider setupIxEx] := by decide

/-- C1 (amended): whenever the stripped provider list contains an action
instruction, the composer partitions it into the instructions strictly
before the first action instruction, those from the first through the last
action instruction inclusive, and those strictly after the last one, and
emits: prefix, the ensure-source-account instruction (for the input mint),
`Begin [input_amount, 0]`, the action block, `End 2 Swap`, suffix. -/
theorem sanctum_compose_partition_order (owner inputMint outputMint : Pubkey)
    (amt : Nat) (ixs : List Instruction)
    (h : (stripWrap ixs).any isActionIx = true) :
    composeBundle owner inputMint outputMint amt ixs =
      .ok ((actionBefore (stripWrap ixs)).map .provider
        ++ [.createAtaIdempotent owner owner inputMint]
        ++ [.flashLoanBegin [amt, 0]]
        ++ (actionBlock (stripWrap ixs)).map .provider
        ++ [.flashLoanEnd 2 .swap]
        ++ (actionAfter (stripWrap ixs)).map .provider) :=
  composeBundle_shape owner inputMint outputMint amt ixs h

/-- Witness for C1 (amended) at the specification's own example
`[setup, action, setup]`: prefix `[setup]`, action block `[action]`,
suffix `[setup]`. -/
theorem sanctum_compose_partition_order_witness :
    (stripWrap [setupIxEx, actionIxEx, setupIxEx]).any isActionIx = true ∧
    composeBundle 1 10 11 7 [setupIxEx, actionIxEx, setupIxEx] =
      .ok [.provider setupIxEx,
           .createAtaIdempotent 1 1 10,
           .flashLoanBegin [7, 0],
           .provider actionIxEx,
           .flashLoanEnd 2 .swap,
           .provider setupIxEx] := by
  refine ⟨by decide, ?_⟩
  rw [sanctum_compose_partition_order 1 10 11 7 [setupIxEx, actionIxEx, setupIxEx]
    (by decide)]
  decide

/-- Counterexample to C6 as stated: for the single-action decoded list
with input mint 10 and output mint 11, the instruction immediately before
`FlashLoanBegin` is the idempotent ATA creation for mint 10 (the input),
which differs from the ATA creation for the destination mint 11. -/
theorem pre_begin_ata_destination_refuted :
    composeBundle 1 10 11 7 [actionIxEx] =
      ComposeResult.ok [.createAtaIdempotent 1 1 10,
        .flashLoanBegin [7, 0],
        .provider actionIxEx,
        .flashLoanEnd 2 .swap]
    ∧ ComposedIx.createAtaIdempotent 1 1 10 ≠
        ComposedIx.createAtaIdempotent 1 1 11 := by decide

/-- C6 (amended): in every successfully composed bundle the instruction
emitted immediately before the flash-loan `Begin` instruction is the
idempotent associated-token-account creation for the source (input) mint,
and `Begin` occurs nowhere else in the bundle. -/
theorem pre_begin_is_source_ata (owner inputMint outputMint : Pubkey)
    (amt : Nat) (ixs : List Instruction) (bundle : List ComposedIx)
    (h : composeBundle owner inputMint outputMint amt ixs = .ok bundle) :
    ∃ A B, bundle = A ++ [ComposedIx.createAtaIdempotent owner owner inputMint,
        ComposedIx.flashLoanBegin [amt, 0]] ++ B
      ∧ (∀ x ∈ A, ∀ la, x ≠ ComposedIx.flashLoanBegin la)
      ∧ (∀ x ∈ B, ∀ la, x ≠ ComposedIx.flashLoanBegin la) := by
  by_cases hany : (stripWrap ixs).any isActionIx = true
  · rw [composeBundle_shape owner inputMint outputMint amt ixs hany] at h
    have hb : bundle =
        (actionBefore (stripWrap ixs)).map ComposedIx.provider
          ++ [ComposedIx.createAtaIdempotent owner owner inputMint,
              ComposedIx.flashLoanBegin [amt, 0]]
          ++ ((actionBlock (stripWrap ixs)).map ComposedIx.provider
              ++ [ComposedIx.flashLoanEnd 2 .swap]
              ++ (actionAfter (stripWrap ixs)).map ComposedIx.provider) := by
      have := h.symm
      injection this with hh
      rw [hh]
      simp [List.append_assoc]
    refine ⟨(actionBefore (stripWrap ixs)).map ComposedIx.provider,
      (actionBlock (stripWrap ixs)).map ComposedIx.provider
        ++ [ComposedIx.flashLoanEnd 2 .swap]
        ++ (actionAfter (stripWrap ixs)).map ComposedIx.provider,
      hb, ?_, ?_⟩
    · intro x hx la
      obtain ⟨ix, _, rfl⟩ := List.mem_map.mp hx
      intro hc
      cases hc
    · intro x hx la
      rcases List.mem_append.mp hx with hx' | hx'
      · rcases List.mem_append.mp hx' with hx'' | hx''
        · obtain ⟨ix, _, rfl⟩ := List.mem_map.mp hx''
          intro hc
          cases hc
        · have : x = ComposedIx.flashLoanEnd 2 .swap := by simpa using hx''
          subst this
          intro hc
          cases hc
      · obtain ⟨ix, _, rfl⟩ := List.mem_map.mp hx'
        intro hc
        cases hc
  · exfalso
    have hfalse : (stripWrap ixs).any isActionIx = false := by
      simpa using hany
    have hfind : (stripWrap ixs).findIdx? isActionIx = none := by
      rw [List.findIdx?_eq_none_iff]
      intro x hx
      have := List.any_eq_false.mp hfalse x hx
      simp [this]
    simp only [composeBundle, hfind] at h
    cases h

/-- Witness for C6 (amended) at a single-action list. -/
theorem pre_begin_is_source_ata_witness :
    ∃ A B, [ComposedIx.createAtaIdempotent 1 1 10,
        ComposedIx.flashLoanBegin [7, 0],
        ComposedIx.provider actionIxEx,
        ComposedIx.flashLoanEnd 2 .swap] =
      A ++ [ComposedIx.createAtaIdempotent 1 1 10,
        ComposedIx.flashLoanBegin [7, 0]] ++ B
      ∧ (∀ x ∈ A, ∀ la, x ≠ ComposedIx.flashLoanBegin la)
      ∧ (∀ x ∈ B, ∀ la, x ≠ ComposedIx.flashLoanBegin la) :=
  pre_begin_is_source_ata 1 10 11 7 [actionIxEx] _ (by decide)

/-- Counterexample to C3 as stated: an account with no free position slot
that already holds positions for both assets does not fail with
`AccountFull` — the quote proceeds. -/
theorem quote_full_account_succeeds :
    accountFullWithPositionsEx.tokenPositions.length =
        accountFullWithPositionsEx.maxTokenPositions
    ∧ (quoteOp quoteCtxEx accountFullWithPositionsEx 10 11 5).1 ≠
        .error .accountFull
    ∧ (quoteOp quoteCtxEx accountFullWithPositionsEx 10 11 5).1 =
        .ok quoteResponseEx := by
  refine ⟨rfl, ?_, rfl⟩
  intro h
  simp [quoteOp, quoteCtxEx, accountFullWithPositionsEx, ensureTokenPosition,
    quoteResponseEx] at h

/-- C3 (amended): the identical-asset check fails with the distinct-asset
violation before any network request; an account with no free slot in
which a required position — the input asset's or the output asset's — is
absent fails `AccountFull` before any network request; and every error
other than provider-unavailable is surfaced with no request sent. -/
theorem quote_validation_before_network (ctx : QuoteCtx)
    (account : MangoAccountModel) (inputMint outputMint : Pubkey)
    (amount : Nat) :
    (inputMint = outputMint →
      quoteOp ctx account inputMint outputMint amount =
        (.error .distinctAssetViolation, []))
    ∧ (∀ inputIdx outputIdx, ctx.tokenByMint inputMint = some inputIdx →
        ctx.tokenByMint outputMint = some outputIdx →
        (inputIdx ∉ account.tokenPositions ∨
          outputIdx ∉ account.tokenPositions) →
        ¬ account.tokenPositions.length < account.maxTokenPositions →
        inputMint ≠ outputMint →
        quoteOp ctx account inputMint outputMint amount =
          (.error .accountFull, []))
    ∧ (∀ e, (quoteOp ctx account inputMint outputMint amount).1 = .error e →
        e ≠ .providerUnavailable →
        (quoteOp ctx account inputMint outputMint amount).2 = []) := by
  refine ⟨?_, ?_, ?_⟩
  · intro h
    simp [quoteOp, h]
  · intro inputIdx outputIdx hlook hlook2 habs hfull hne
    have hbeq : (inputMint == outputMint) = false := by simp [hne]
    rcases habs with h | h
    · simp [quoteOp, hbeq, hlook, hlook2, ensureTokenPosition, h, hfull]
    · by_cases hin : inputIdx ∈ account.tokenPositions
      · simp [quoteOp, hbeq, hlook, hlook2, ensureTokenPosition, hin, h, hfull]
      · simp [quoteOp, hbeq, hlook, hlook2, ensureTokenPosition, hin, hfull]
  · intro e
    unfold quoteOp
    split
    · simp
    · split
      · simp
      · split
        · simp
        · split
          · simp
          · split
            · simp
            · split
              · simp
              · intro h
                injection h with h'
                intro hne
                exact absurd h'.symm hne

/-- Witness for C3 (amended): the identical-mint rejection, the
account-full rejection for an absent input position, and the account-full
rejection for an absent output position, each with an empty request
trace. -/
theorem quote_validation_before_network_witness :
    quoteOp quoteCtxEx accountFullWithPositionsEx 10 10 5 =
      (.error .distinctAssetViolation, [])
    ∧ quoteOp quoteCtxEx accountNoSlotEx 10 11 5 =
      (.error .accountFull, [])
    ∧ quoteOp quoteCtxEx accountMissingOutputEx 10 11 5 =
      (.error .accountFull, []) :=
  ⟨(quote_validation_before_network quoteCtxEx accountFullWithPositionsEx
      10 10 5).1 rfl,
   (quote_validation_before_network quoteCtxEx accountNoSlotEx 10 11 5).2.1
      0 1 (by decide) (by decide) (Or.inl (by decide)) (by decide) (by decide),
   (quote_validation_before_network quoteCtxEx accountMissingOutputEx
      10 11 5).2.1
      0 1 (by decide) (by decide) (Or.inr (by decide)) (by decide) (by decide)⟩

/-- Counterexample to C5 as stated: a malformed `in_amount` does not
surface as a recoverable `ArithmeticOverflow`-class error — the code
panics on the `unwrap`. -/
theorem amounts_malformed_in_amount_panics :
    computeSwapAmounts quoteBadInEx = .panicked "u64 from_str unwrap"
    ∧ computeSwapAmounts quoteBadInEx ≠ .err .arithmeticOverflow := by decide

/-- C5 (amended): a missing `in_amount` and a malformed `in_amount` abort
by panicking (not by returning a recoverable error), while a malformed
`out_amount` aborts with the recoverable `ArithmeticOverflow`-class parse
error. -/
theorem amounts_error_modes (q : QuoteResponseM) :
    (q.inAmount = none →
      computeSwapAmounts q = .panicked "sanctum require a in amount")
    ∧ (∀ v, q.inAmount = some v → parseU64 v = none →
        computeSwapAmounts q = .panicked "u64 from_str unwrap")
    ∧ (∀ v n, q.inAmount = some v → parseU64 v = some n →
        parseU64 q.outAmount = none →
        computeSwapAmounts q = .err .arithmeticOverflow) := by
  refine ⟨?_, ?_, ?_⟩
  · intro h
    simp [computeSwapAmounts, h]
  · intro v h hv
    simp [computeSwapAmounts, h, hv]
  · intro v n h hv hout
    simp [computeSwapAmounts, h, hv, hout]

/-- Witness for C5 (amended): the malformed-`in_amount` panic and the
malformed-`out_amount` recoverable error at concrete responses. -/
theorem amounts_error_modes_witness :
    computeSwapAmounts quoteBadInEx = .panicked "u64 from_str unwrap"
    ∧ computeSwapAmounts ⟨some "100", "9x", "0", "m", "0", "s"⟩ =
        .err .arithmeticOverflow :=
  ⟨(amounts_error_modes quoteBadInEx).2.1 "12x" rfl (by decide),
   (amounts_error_modes ⟨some "100", "9x", "0", "m", "0", "s"⟩).2.2
      "100" 100 rfl (by decide) (by decide)⟩

example : sanctumOutAmount 1000 50 = 995 := by decide

example : sanctumOutAmount 101 100 = 100 := by decide

example : sanctumOutAmount 3 1 = 3 := by decide

example : sanctumOutAmount 20000 1 = 19998 := by decide

example : sanctumOutAmount 1000000 3 = 999700 := by decide

example : sanctumOutAmount 999999999999999999 9999 = 99999999999989 := by decide

example : sanctumOutAmount 7 20000 = 0 := by decide

/-- Counterexample to C2 as stated: the code computes `min_output` in
`f64` arithmetic, which is not the exact arithmetic ceiling of the
rational product for every u64 input. At `estimated_output = 2^53 + 1`,
`slippage_bps = 0`, the `u64 as f64` conversion rounds to `2^53` (ties to
even), so the code yields `2^53` while the exact ceiling is `2^53 + 1`. -/
theorem min_output_not_exact_ceiling :
    (sanctumOutAmount (2 ^ 53 + 1) 0 : Int) ≠
      exactCeilMinOutput (2 ^ 53 + 1) 0 := by
  have h1 : sanctumOutAmount (2 ^ 53 + 1) 0 = 9007199254740992 := by decide
  have h2 : exactCeilMinOutput (2 ^ 53 + 1) 0 = 9007199254740993 := by
    unfold exactCeilMinOutput
    norm_num
  rw [h1, h2]
  decide

/-- C2 (amended): `min_output` is computed by evaluating
`ceil(estimated_output * (1 - slippage_bps/10000))` in IEEE-754 double
precision; at the specification's example `estimated_output = 1000`,
`slippage_bps = 50` this yields 995, agreeing with the exact rational
ceiling there. -/
theorem min_output_f64_matches_spec_example :
    sanctumOutAmount 1000 50 = 995 ∧ exactCeilMinOutput 1000 50 = 995 := by
  refine ⟨by decide, ?_⟩
  unfold exactCeilMinOutput
  norm_num

/-- C8: every successful token registration produces a ledger record with
`deposit_index = borrow_index = INDEX_START`, zero indexed totals,
`last_updated` at the current timestamp, and therefore
`indexed_total_borrows ≤ indexed_total_deposits` at the settled state. -/
theorem token_register_initial_state (name : String)
    (group mint vault oracle : Pubkey) (now : Int)
    (util0 rate0 util1 rate1 maxRate : I80F48)
    (loanOriginationFeeRate loanFeeRate : I80F48)
    (maintAssetWeight initAssetWeight maintLiabWeight initLiabWeight
      liquidationFee : I80F48)
    (tokenIndex : TokenIndex) (bump mintDecimals : Nat) :
    (tokenRegister name group mint vault oracle now util0 rate0 util1 rate1
        maxRate loanOriginationFeeRate loanFeeRate maintAssetWeight
        initAssetWeight maintLiabWeight initLiabWeight liquidationFee
        tokenIndex bump mintDecimals).depositIndex = INDEX_START
    ∧ (tokenRegister name group mint vault oracle now util0 rate0 util1 rate1
        maxRate loanOriginationFeeRate loanFeeRate maintAssetWeight
        initAssetWeight maintLiabWeight initLiabWeight liquidationFee
        tokenIndex bump mintDecimals).borrowIndex = INDEX_START
    ∧ (tokenRegister name group mint vault oracle now util0 rate0 util1 rate1
        maxRate loanOriginationFeeRate loanFeeRate maintAssetWeight
        initAssetWeight maintLiabWeight initLiabWeight liquidationFee
        tokenIndex bump mintDecimals).indexedTotalDeposits = I80F48.zero
    ∧ (tokenRegister name group mint vault oracle now util0 rate0 util1 rate1
        maxRate loanOriginationFeeRate loanFeeRate maintAssetWeight
        initAssetWeight maintLiabWeight initLiabWeight liquidationFee
        tokenIndex bump mintDecimals).indexedTotalBorrows = I80F48.zero
    ∧ (tokenRegister name group mint vault oracle now util0 rate0 util1 rate1
        maxRate loanOriginationFeeRate loanFeeRate maintAssetWeight
        initAssetWeight maintLiabWeight initLiabWeight liquidationFee
        tokenIndex bump mintDecimals).lastUpdated = now
    ∧ (tokenRegister name group mint vault oracle now util0 rate0 util1 rate1
        maxRate loanOriginationFeeRate loanFeeRate maintAssetWeight
        initAssetWeight maintLiabWeight initLiabWeight liquidationFee
        tokenIndex bump mintDecimals).indexedTotalBorrows.raw ≤
      (tokenRegister name group mint vault oracle now util0 rate0 util1 rate1
        maxRate loanOriginationFeeRate loanFeeRate maintAssetWeight
        initAssetWeight maintLiabWeight initLiabWeight liquidationFee
        tokenIndex bump mintDecimals).indexedTotalDeposits.raw :=
  ⟨rfl, rfl, rfl, rfl, rfl, le_refl 0⟩

/-- C9: the build-time size assertions of mint_info.rs (lines 34-38) hold:
the record size equals `MAX_BANKS * 2 * 32 + 4 * 32 + 2 + 2 + 4` and is a
multiple of 8. -/
theorem mint_info_size_assertions :
    sizeOfMintInfo = MAX_BANKS * 2 * 32 + 4 * 32 + 2 + 2 + 4
    ∧ sizeOfMintInfo % 8 = 0 := by decide

/-- C10: `num_banks` is the length of the longest default-free prefix of
`banks` (the index of the first all-zero key, or `MAX_BANKS` when none);
`banks()` returns exactly that prefix; and `verify_banks_ais` succeeds iff
the keys of the account infos are element-wise equal (same length, same
order) to that prefix. -/
theorem mint_info_banks_spec (m : MintInfo) (ais : List AccountInfoM) :
    m.numBanks = (m.banks.takeWhile (fun b => !(b == pubkeyDefault))).length
    ∧ m.banksActive = m.banks.takeWhile (fun b => !(b == pubkeyDefault))
    ∧ (m.verifyBanksAis ais = .ok () ↔
        ais.map AccountInfoM.key = m.banksActive) := by
  have hfind := findIdx?_eq_of_takeWhile (fun b => b == pubkeyDefault) m.banks
  have h1 : m.numBanks =
      (m.banks.takeWhile (fun b => !(b == pubkeyDefault))).length := by
    unfold MintInfo.numBanks
    rw [hfind]
    by_cases hnil :
        m.banks.dropWhile (fun b => !(b == pubkeyDefault)) = []
    · rw [if_pos hnil]
      have happ := List.takeWhile_append_dropWhile
        (fun b => !(b == pubkeyDefault)) m.banks
      rw [hnil, List.append_nil] at happ
      simp [Option.getD, happ, m.banksLen]
    · rw [if_neg hnil]
      simp [Option.getD]
  refine ⟨h1, ?_, ?_⟩
  · unfold MintInfo.banksActive
    rw [h1]
    exact take_takeWhile_length _ m.banks
  · unfold MintInfo.verifyBanksAis
    by_cases h : ais.map AccountInfoM.key = m.banksActive
    · simp [h]
    · simp [h]

end MangoV4
